import Mathlib

/-!
Shallow embedding of jerryscript's Boolean.prototype built-in object
(src/libecmabuiltins/ecma-builtin-boolean-prototype-object.c) and proofs
about its behaviour.

Machine integers are modelled as `Nat` with explicit `% 2^32` / masking
where 32-bit overflow matters.  Fallible engine operations (internal
`JERRY_ASSERT` failures and `JERRY_UNREACHABLE`, which trap the engine)
are modelled by returning `none`.
-/

namespace JerryBoolProto

/-! ## Simple values (`ecma_simple_value_t`)

Modelled from the spec: the simple-value enumeration lives in the engine
headers, which are not part of this source file.  Only the numeric order
facts used here matter: the boolean simple values are distinct and both lie
below `ECMA_SIMPLE_VALUE__COUNT`. -/

def ECMA_SIMPLE_VALUE_EMPTY : Nat := 0

def ECMA_SIMPLE_VALUE_UNDEFINED : Nat := 1

def ECMA_SIMPLE_VALUE_NULL : Nat := 2

def ECMA_SIMPLE_VALUE_FALSE : Nat := 3

def ECMA_SIMPLE_VALUE_TRUE : Nat := 4

def ECMA_SIMPLE_VALUE_ARRAY_REDIRECT : Nat := 5

def ECMA_SIMPLE_VALUE__COUNT : Nat := 6

/-! ## Magic string identifiers (`ecma_magic_string_id_t`)

Modelled from the spec: the magic-string id enumeration is defined in the
engine headers, not in this source file.  The spec states that every static
registry array is strictly sorted by numeric id; the registry array of this
file lists `constructor`, `toString`, `valueOf` in that order, so the ids
are assigned strictly increasing values consistent with that contract. -/

def ECMA_MAGIC_STRING_TRUE : Nat := 1

def ECMA_MAGIC_STRING_FALSE : Nat := 2

def ECMA_MAGIC_STRING_BOOLEAN_UL : Nat := 5

def ECMA_MAGIC_STRING_CONSTRUCTOR : Nat := 10

def ECMA_MAGIC_STRING_TO_STRING_UL : Nat := 30

def ECMA_MAGIC_STRING_VALUE_OF_UL : Nat := 40

/-! ## Builtin ids (`ecma_builtin_id_t`), modelled from the spec. -/

def ECMA_BUILTIN_ID_BOOLEAN : Nat := 4

def ECMA_BUILTIN_ID_BOOLEAN_PROTOTYPE : Nat := 5

/-! ## Internal property ids (`ecma_internal_property_id_t`),
modelled from the spec (internal slots: class tag, primitive value). -/

def ECMA_INTERNAL_PROPERTY_CLASS : Nat := 0

def ECMA_INTERNAL_PROPERTY_PRIMITIVE_BOOLEAN_VALUE : Nat := 1

/-! ## Values and completion values -/

/-- Object references (`ecma_object_t *`).  Heap objects reachable as a
`this` value are named by an index; the dispatcher and instantiator also
produce references to builtin-routine function objects, to builtin objects
(`ecma_builtin_get`), and to freshly allocated standard error objects
(`ecma_new_standard_error`), which we keep symbolic. -/
inductive ObjPtr where
  | ref (n : Nat)
  | routine (builtinId : Nat) (routineId : Nat)
  | builtin (builtinId : Nat)
  | stdError (errType : Nat)
deriving DecidableEq, Repr

/-- Model of `ecma_value_t`: tagged value.  Simple values carry their numeric
`ecma_simple_value_t` code; strings are represented by their magic-string
id (the only strings produced here are magic strings). -/
inductive EcmaValue where
  | simple (sv : Nat)
  | number (n : Int)
  | string (msId : Nat)
  | object (p : ObjPtr)
deriving DecidableEq, Repr

def value_undefined : EcmaValue := .simple ECMA_SIMPLE_VALUE_UNDEFINED

/-- Model of `ecma_make_simple_value`. -/
def ecma_make_simple_value (sv : Nat) : EcmaValue := .simple sv

/-- Model of `ecma_is_value_boolean`: the value is the simple value TRUE or FALSE. -/
def ecma_is_value_boolean (v : EcmaValue) : Bool :=
  v = EcmaValue.simple ECMA_SIMPLE_VALUE_TRUE ∨ v = EcmaValue.simple ECMA_SIMPLE_VALUE_FALSE

/-- Model of `ecma_completion_value_t`: tagged completion (Normal / Throw / Return /
Exit), the algebraic result protocol replacing native exceptions. -/
inductive CompletionValue where
  | normal (v : EcmaValue)
  | throw (v : EcmaValue)
  | ret (v : EcmaValue)
  | exit (b : Bool)
deriving DecidableEq, Repr

def ecma_is_completion_value_normal : CompletionValue → Bool
  | .normal _ => true
  | _ => false

def ecma_is_completion_value_throw : CompletionValue → Bool
  | .throw _ => true
  | _ => false

def ecma_is_completion_value_normal_true (c : CompletionValue) : Bool :=
  c = CompletionValue.normal (.simple ECMA_SIMPLE_VALUE_TRUE)

def ecma_is_completion_value_normal_false (c : CompletionValue) : Bool :=
  c = CompletionValue.normal (.simple ECMA_SIMPLE_VALUE_FALSE)

def ecma_make_normal_completion_value (v : EcmaValue) : CompletionValue := .normal v

/-- Model of `ecma_make_throw_obj_completion_value (ecma_new_standard_error t)`:
a Throw completion carrying a freshly constructed standard error object. -/
def ecma_new_standard_error (errType : Nat) : EcmaValue := .object (.stdError errType)

def ECMA_ERROR_TYPE : Nat := 2

/-! ## Heap of internal properties

`ecma_get_internal_property (obj, id)` asserts the internal property
exists; a missing internal property is an engine-invariant violation.
The heap maps an object reference and an internal property id to the
packed `uint32` value of that internal property (`u.internal_property.value`),
or `none` when the object has no such internal property. -/

def Heap : Type := ObjPtr → Nat → Option Nat

def ecma_get_internal_property (h : Heap) (p : ObjPtr) (pid : Nat) : Option Nat :=
  h p pid

/-! ## `ecma_builtin_boolean_prototype_object_value_of` (lines 134-165)

Returns `none` exactly when a `JERRY_ASSERT` inside the routine would trap
(missing internal property, primitive slot out of range or non-boolean). -/

def ecma_builtin_boolean_prototype_object_value_of (h : Heap) (this : EcmaValue) :
    Option CompletionValue :=
  if ecma_is_value_boolean this then
    some (ecma_make_normal_completion_value this)
  else
    match this with
    | .object obj_p =>
      match ecma_get_internal_property h obj_p ECMA_INTERNAL_PROPERTY_CLASS with
      | none => none
      | some class_value =>
        if class_value = ECMA_MAGIC_STRING_BOOLEAN_UL then
          match ecma_get_internal_property h obj_p
              ECMA_INTERNAL_PROPERTY_PRIMITIVE_BOOLEAN_VALUE with
          | none => none
          | some prim_value =>
            if prim_value < ECMA_SIMPLE_VALUE__COUNT then
              let ret_boolean_value := ecma_make_simple_value prim_value
              if ecma_is_value_boolean ret_boolean_value then
                some (ecma_make_normal_completion_value ret_boolean_value)
              else
                none
            else
              none
        else
          some (.throw (ecma_new_standard_error ECMA_ERROR_TYPE))
    | _ => some (.throw (ecma_new_standard_error ECMA_ERROR_TYPE))

/-- Model of `ecma_get_magic_string` followed by `ecma_make_string_value`. -/
def ecma_make_magic_string_value (msId : Nat) : EcmaValue := .string msId

/-! ## `ecma_builtin_boolean_prototype_object_to_string` (lines 96-123)

`ECMA_TRY_CATCH` is modelled from the spec: a Throw sub-result aborts the
routine forwarding the Throw unchanged; a Normal sub-result is unwrapped
and the body continues; the body asserts (`JERRY_ASSERT`) that a normal
completion that is not normal-true is normal-false. -/

def ecma_builtin_boolean_prototype_object_to_string (h : Heap) (this : EcmaValue) :
    Option CompletionValue :=
  match ecma_builtin_boolean_prototype_object_value_of h this with
  | none => none
  | some completion_value_of =>
    if ecma_is_completion_value_normal completion_value_of then
      if ecma_is_completion_value_normal_true completion_value_of then
        some (ecma_make_normal_completion_value
          (ecma_make_magic_string_value ECMA_MAGIC_STRING_TRUE))
      else if ecma_is_completion_value_normal_false completion_value_of then
        some (ecma_make_normal_completion_value
          (ecma_make_magic_string_value ECMA_MAGIC_STRING_FALSE))
      else
        none
    else
      some completion_value_of

/-! ## Property name strings, registry and binary search -/

/-- Model of an `ecma_string_t` pointer property-name argument: either a string interned as a
magic string (carrying its id), or any other string. -/
inductive EcmaString where
  | magic (id : Nat)
  | other (n : Nat)
deriving DecidableEq, Repr

/-- Model of `ecma_is_string_magic (str, &id)`: `some id` iff the string is a magic
string. -/
def ecma_is_string_magic : EcmaString → Option Nat
  | .magic id => some id
  | .other _ => none

/-- Model of `ecma_builtin_property_names` (lines 71-79): values list first
(`constructor`), then the routines list (`toString`, `valueOf`), in macro
expansion order. -/
def ecma_builtin_property_names : List Nat :=
  [ECMA_MAGIC_STRING_CONSTRUCTOR,
   ECMA_MAGIC_STRING_TO_STRING_UL,
   ECMA_MAGIC_STRING_VALUE_OF_UL]

/-- Model of `ecma_builtin_boolean_prototype_property_number` (lines 84-85). -/
def ecma_builtin_boolean_prototype_property_number : Nat :=
  ecma_builtin_property_names.length

/-- Modelled from the spec: `ecma_builtin_bin_search_for_magic_string_id_in_array`
is defined in ecma-builtins.c, which is not part of this source file; the
spec describes it as `lookup(sortedNames, id) -> index | NotFound` via
binary search.  Standard int binary search over `[lo, hi]`, fuelled for
termination. -/
def bin_search_go (arr : List Nat) (id : Nat) : Nat → Int → Int → Int
  | 0, _, _ => -1
  | fuel + 1, lo, hi =>
    if lo > hi then -1
    else
      let mid := (lo + hi) / 2
      let v := arr.getD mid.toNat 0
      if v = id then mid
      else if v < id then bin_search_go arr id fuel (mid + 1) hi
      else bin_search_go arr id fuel lo (mid - 1)

/-- Modelled from the spec: binary-search entry point; returns the index of
`id` in the sorted array of length `n`, or `-1` when absent. -/
def ecma_builtin_bin_search_for_magic_string_id_in_array
    (arr : List Nat) (n : Nat) (id : Nat) : Int :=
  bin_search_go arr id (n + 1) 0 (Int.ofNat n - 1)

/-! ## Property records and the lazy instantiator -/

/-- A named data property record as created by
`ecma_create_named_data_property` and filled by the instantiator. -/
structure PropertyRecord where
  writable : Bool
  enumerable : Bool
  configurable : Bool
  value : EcmaValue
deriving DecidableEq, Repr

/-- The two 32-bit non-instantiated masks stored as internal properties
`ECMA_INTERNAL_PROPERTY_NON_INSTANTIATED_BUILT_IN_MASK_0_31` / `_32_63` of
the builtin object (each a `uint32`, so `< 2^32`). -/
structure MaskState where
  mask_0_31 : Nat
  mask_32_63 : Nat
deriving DecidableEq, Repr

/-- Observable collaborator calls made while materializing a property, in
program order. -/
inductive Event where
  | create_named_data_property
  | gc_update_may_ref_younger_object_flag
  | free_value
deriving DecidableEq, Repr

/-- 32-bit complement `~bit` of a `uint32`. -/
def compl32 (bit : Nat) : Nat := (2 ^ 32 - 1) ^^^ bit

/-- Model of `ecma_builtin_boolean_prototype_try_to_instantiate_property`
(lines 175-285), as a transformer of the builtin object's mask state.

The two entry `JERRY_ASSERT`s (the object is the Boolean.prototype builtin
and has no explicit record for the name yet) are caller-enforced
preconditions on state not modelled here (the external property store);
the remaining asserts and `JERRY_UNREACHABLE`s are modelled: the outer
`none` means the engine traps.  On success the result carries the created
property record, the updated mask state, and the trace of collaborator
calls. -/
def ecma_builtin_boolean_prototype_try_to_instantiate_property
    (s : MaskState) (prop_name : EcmaString) :
    Option (Option PropertyRecord × MaskState × List Event) :=
  match ecma_is_string_magic prop_name with
  | none => some (none, s, [])
  | some id =>
    let index := ecma_builtin_bin_search_for_magic_string_id_in_array
      ecma_builtin_property_names ecma_builtin_boolean_prototype_property_number id
    if index = -1 then some (none, s, [])
    else if ¬ (0 ≤ index ∧ index.toNat < 64) then none
    else
      let idx := index.toNat
      let bit : Nat := if idx ≥ 32 then 1 <<< (idx - 32) else 1 <<< idx
      let bit_mask : Nat := if idx ≥ 32 then s.mask_32_63 else s.mask_0_31
      if bit_mask &&& bit = 0 then some (none, s, [])
      else
        let bit_mask2 := bit_mask &&& compl32 bit
        let s2 : MaskState :=
          if idx ≥ 32 then ⟨s.mask_0_31, bit_mask2⟩ else ⟨bit_mask2, s.mask_32_63⟩
        if id = ECMA_MAGIC_STRING_TO_STRING_UL ∨ id = ECMA_MAGIC_STRING_VALUE_OF_UL then
          let value := EcmaValue.object (.routine ECMA_BUILTIN_ID_BOOLEAN_PROTOTYPE id)
          some (some ⟨true, false, true, value⟩, s2,
            [Event.create_named_data_property,
             Event.gc_update_may_ref_younger_object_flag,
             Event.free_value])
        else if id = ECMA_MAGIC_STRING_CONSTRUCTOR then
          let value := EcmaValue.object (.builtin ECMA_BUILTIN_ID_BOOLEAN)
          some (some ⟨false, false, false, value⟩, s2,
            [Event.create_named_data_property,
             Event.gc_update_may_ref_younger_object_flag,
             Event.free_value])
        else
          none

/-! ## Dispatcher and arity lookup -/

/-- Model of `ROUTINE_ARG(n)` (line 305): argument `n` (1-based) of a fixed-arity
routine call, defaulting to undefined when the call site passed fewer than
`n` arguments. -/
def routine_arg (arguments_list : List EcmaValue) (arguments_number : Nat) (n : Nat) :
    EcmaValue :=
  if arguments_number ≥ n then arguments_list.getD (n - 1) value_undefined
  else value_undefined

/-- Model of `ecma_builtin_boolean_prototype_dispatch_routine` (lines 293-329).
Both routines have fixed arity 0, so their macro-expanded calls pass only
the `this` value; the argument list and count are ignored (`__unused`).
`none` models the `JERRY_UNREACHABLE` default (unregistered routine id) or
a trap inside the routine. -/
def ecma_builtin_boolean_prototype_dispatch_routine (h : Heap)
    (builtin_routine_id : Nat) (this_arg_value : EcmaValue)
    (arguments_list : List EcmaValue) (arguments_number : Nat) :
    Option CompletionValue :=
  if builtin_routine_id = ECMA_MAGIC_STRING_TO_STRING_UL then
    ecma_builtin_boolean_prototype_object_to_string h this_arg_value
  else if builtin_routine_id = ECMA_MAGIC_STRING_VALUE_OF_UL then
    ecma_builtin_boolean_prototype_object_value_of h this_arg_value
  else
    none

/-- Model of `ecma_builtin_boolean_prototype_get_routine_parameters_number`
(lines 336-352): returns each routine's declared `length` from the static
routine table; `none` models the `JERRY_UNREACHABLE` default. -/
def ecma_builtin_boolean_prototype_get_routine_parameters_number
    (builtin_routine_id : Nat) : Option Nat :=
  if builtin_routine_id = ECMA_MAGIC_STRING_TO_STRING_UL then some 0
  else if builtin_routine_id = ECMA_MAGIC_STRING_VALUE_OF_UL then some 0
  else none

/-! ## Derived lookup helpers -/

/-- The registry index the instantiator computes for a property name:
`none` when the name is not a magic string or absent from the registry. -/
def registry_index (name : EcmaString) : Option Nat :=
  match ecma_is_string_magic name with
  | none => none
  | some id =>
    let i := ecma_builtin_bin_search_for_magic_string_id_in_array
      ecma_builtin_property_names ecma_builtin_boolean_prototype_property_number id
    if i = -1 then none else some i.toNat

/-- Bit `idx` of the 64-bit non-instantiated mask view (index 0-31 in the
low word, 32-63 in the high word). -/
def mask64_testBit (s : MaskState) (j : Nat) : Bool :=
  if j ≥ 32 then s.mask_32_63.testBit (j - 32) else s.mask_0_31.testBit j

/-! ## Arithmetic helper lemmas for 32-bit mask manipulation -/

theorem land_one_shift_eq_zero_iff (m i : Nat) :
    (m &&& (1 <<< i)) = 0 ↔ m.testBit i = false := by
  constructor
  · intro h
    have := congrArg (fun x => Nat.testBit x i) h
    simp only [Nat.testBit_land, Nat.testBit_shiftLeft, Nat.zero_testBit] at this
    simpa using this
  · intro h
    refine Nat.eq_of_testBit_eq fun j => ?_
    simp only [Nat.testBit_land, Nat.testBit_shiftLeft, Nat.zero_testBit]
    by_cases hji : j = i
    · subst hji; simp [h]
    · have : ¬(i ≤ j ∧ j - i = 0) := by omega
      rcases Nat.lt_or_ge j i with hlt | hge

      · simp [Nat.not_le.mpr hlt]
      · have hpos : 0 < j - i := by omega
        have : Nat.testBit 1 (j - i) = false := by
          rcases Nat.exists_eq_add_of_lt hpos with ⟨k, hk⟩
          simp [show j - i = k + 1 by omega, Nat.testBit_succ]
        simp [this]

theorem testBit_compl32 (i j : Nat) (hi : i < 32) :
    (compl32 (1 <<< i)).testBit j =
      if j < 32 then decide (j ≠ i) else false := by
  simp only [compl32, Nat.testBit_xor, Nat.testBit_two_pow_sub_one, Nat.testBit_shiftLeft]
  by_cases hj : j < 32
  · simp only [if_pos hj]
    by_cases hji : j = i
    · subst hji; simp [hj]
    · rcases Nat.lt_or_ge j i with hlt | hge
      · simp [Nat.not_le.mpr hlt, hji, hj]
      · have hpos : 0 < j - i := by omega
        have h1 : Nat.testBit 1 (j - i) = false := by
          rcases Nat.exists_eq_add_of_lt hpos with ⟨k, hk⟩
          simp [show j - i = k + 1 by omega, Nat.testBit_succ]
        simp [hge, h1, hji, hj]
  · have hge : 32 ≤ j := Nat.not_lt.mp hj
    have h1 : Nat.testBit 1 (j - i) = false := by
      have hpos : 0 < j - i := by omega
      rcases Nat.exists_eq_add_of_lt hpos with ⟨k, hk⟩
      simp [show j - i = k + 1 by omega, Nat.testBit_succ]
    simp [hj, Nat.le_of_lt (by omega : i < j), h1]

theorem testBit_land_compl32_self (m i : Nat) (hi : i < 32) :
    (m &&& compl32 (1 <<< i)).testBit i = false := by
  simp [Nat.testBit_land, testBit_compl32 i i hi, hi]

theorem testBit_land_compl32_other (m i j : Nat) (hi : i < 32) (hm : m < 2 ^ 32)
    (hj : j ≠ i) : (m &&& compl32 (1 <<< i)).testBit j = m.testBit j := by
  simp only [Nat.testBit_land, testBit_compl32 i j hi]
  by_cases hj32 : j < 32
  · simp [hj32, hj]
  · have : m.testBit j = false := by
      apply Nat.testBit_lt_two_pow
      calc m < 2 ^ 32 := hm
        _ ≤ 2 ^ j := Nat.pow_le_pow_right (by omega) (by omega)
    simp [hj32, this]

/-! ## Binary search characterization on the Boolean.prototype registry -/

theorem bin_search_go_zero (arr : List Nat) (id : Nat) (lo hi : Int) :
    bin_search_go arr id 0 lo hi = -1 := rfl

theorem bin_search_go_succ (arr : List Nat) (id : Nat) (fuel : Nat) (lo hi : Int) :
    bin_search_go arr id (fuel + 1) lo hi =
      if lo > hi then -1
      else if arr.getD ((lo + hi) / 2).toNat 0 = id then (lo + hi) / 2
      else if arr.getD ((lo + hi) / 2).toNat 0 < id then
        bin_search_go arr id fuel ((lo + hi) / 2 + 1) hi
      else bin_search_go arr id fuel lo ((lo + hi) / 2 - 1) := rfl

theorem bin_search_names_characterization (id : Nat) :
    ecma_builtin_bin_search_for_magic_string_id_in_array ecma_builtin_property_names
      ecma_builtin_boolean_prototype_property_number id =
      if id = ECMA_MAGIC_STRING_CONSTRUCTOR then 0
      else if id = ECMA_MAGIC_STRING_TO_STRING_UL then 1
      else if id = ECMA_MAGIC_STRING_VALUE_OF_UL then 2
      else -1 := by
  by_cases h1 : id = ECMA_MAGIC_STRING_CONSTRUCTOR
  · subst h1; decide
  by_cases h2 : id = ECMA_MAGIC_STRING_TO_STRING_UL
  · subst h2; decide
  by_cases h3 : id = ECMA_MAGIC_STRING_VALUE_OF_UL
  · subst h3; decide
  simp only [if_neg h1, if_neg h2, if_neg h3]
  simp only [ECMA_MAGIC_STRING_CONSTRUCTOR, ECMA_MAGIC_STRING_TO_STRING_UL,
    ECMA_MAGIC_STRING_VALUE_OF_UL] at h1 h2 h3
  show bin_search_go [10, 30, 40] id (3 + 1) 0 2 = -1
  rw [bin_search_go_succ]
  norm_num [List.getD]
  split_ifs with ha hb
  · omega
  · show bin_search_go [10, 30, 40] id (2 + 1) 2 2 = -1
    rw [bin_search_go_succ]
    norm_num [List.getD]
    split_ifs with hc hd
    · simp only [show Int.toNat 2 = 2 from rfl] at hc
      norm_num [List.getD] at hc
      omega
    · show bin_search_go [10, 30, 40] id (1 + 1) 3 2 = -1
      rw [bin_search_go_succ]
      norm_num
    · show bin_search_go [10, 30, 40] id (1 + 1) 2 1 = -1
      rw [bin_search_go_succ]
      norm_num
  · show bin_search_go [10, 30, 40] id (2 + 1) 0 0 = -1
    rw [bin_search_go_succ]
    norm_num [List.getD]
    split_ifs with hc hd
    · omega
    · show bin_search_go [10, 30, 40] id (1 + 1) 1 0 = -1
      rw [bin_search_go_succ]
      norm_num
    · show bin_search_go [10, 30, 40] id (1 + 1) 0 (-1) = -1
      rw [bin_search_go_succ]
      norm_num

/-- C5: the registry array of the Boolean.prototype builtin (constructor,
toString, valueOf) is strictly sorted by numeric magic-string id, and the
binary search used by try_to_instantiate_property finds every registered
name at its index. -/
theorem registry_sorted_and_found :
    List.Chain' (· < ·) ecma_builtin_property_names ∧
    ∀ i : Fin ecma_builtin_property_names.length,
      ecma_builtin_bin_search_for_magic_string_id_in_array ecma_builtin_property_names
        ecma_builtin_boolean_prototype_property_number
        (ecma_builtin_property_names.get i) = Int.ofNat i.val := by
  refine ⟨?_, by decide⟩
  show List.Chain' (· < ·) [10, 30, 40]
  simp [List.chain'_cons]

/-- C6: the arity lookup returns 0 for the toString routine id and 0 for
the valueOf routine id; by construction it is a function of the routine id
alone (it takes no state and no argument count). -/
theorem get_routine_parameters_number_zero :
    ecma_builtin_boolean_prototype_get_routine_parameters_number
      ECMA_MAGIC_STRING_TO_STRING_UL = some 0 ∧
    ecma_builtin_boolean_prototype_get_routine_parameters_number
      ECMA_MAGIC_STRING_VALUE_OF_UL = some 0 := by
  decide

/-- C7: for both fixed-arity-0 routines of this builtin, dispatch with any
surplus argument list and count returns the same completion as dispatch
with exactly the declared number (zero) of arguments; and `ROUTINE_ARG`
substitutes undefined for every missing trailing argument. -/
theorem dispatch_surplus_arguments_invariant (h : Heap) (this : EcmaValue)
    (arguments_list : List EcmaValue) (arguments_number : Nat) :
    ecma_builtin_boolean_prototype_dispatch_routine h ECMA_MAGIC_STRING_TO_STRING_UL
        this arguments_list arguments_number =
      ecma_builtin_boolean_prototype_dispatch_routine h ECMA_MAGIC_STRING_TO_STRING_UL
        this [] 0 ∧
    ecma_builtin_boolean_prototype_dispatch_routine h ECMA_MAGIC_STRING_VALUE_OF_UL
        this arguments_list arguments_number =
      ecma_builtin_boolean_prototype_dispatch_routine h ECMA_MAGIC_STRING_VALUE_OF_UL
        this [] 0 ∧
    ∀ n, arguments_number < n →
      routine_arg arguments_list arguments_number n = value_undefined := by
  refine ⟨rfl, rfl, fun n hn => ?_⟩
  simp [routine_arg, Nat.not_le.mpr hn]

/-- Witness for C7 at a concrete surplus-argument call. -/
theorem dispatch_surplus_arguments_invariant_witness :
    ecma_builtin_boolean_prototype_dispatch_routine (fun _ _ => none)
        ECMA_MAGIC_STRING_TO_STRING_UL (.simple ECMA_SIMPLE_VALUE_TRUE)
        [.number 1, .number 2] 2 =
      ecma_builtin_boolean_prototype_dispatch_routine (fun _ _ => none)
        ECMA_MAGIC_STRING_TO_STRING_UL (.simple ECMA_SIMPLE_VALUE_TRUE) [] 0 ∧
    routine_arg [.number 1, .number 2] 2 3 = value_undefined :=
  ⟨(dispatch_surplus_arguments_invariant (fun _ _ => none)
      (.simple ECMA_SIMPLE_VALUE_TRUE) [.number 1, .number 2] 2).1,
   (dispatch_surplus_arguments_invariant (fun _ _ => none)
      (.simple ECMA_SIMPLE_VALUE_TRUE) [.number 1, .number 2] 2).2.2 3 (by decide)⟩

/-! ## valueOf / toString behaviour -/

/-- C1: `valueOf` returns `Normal(v)` when `v` is a primitive boolean;
`Normal(b)` when `v` is an object whose internal class slot equals the
boolean-wrapper class tag, where `b` is the primitive boolean stored in
its internal primitive-value slot; and `Throw(TypeError)` for every other
input (objects with a different class tag, and every non-object
non-boolean value such as numbers). -/
theorem value_of_cases (h : Heap) (v : EcmaValue) :
    (ecma_is_value_boolean v = true →
      ecma_builtin_boolean_prototype_object_value_of h v =
        some (.normal v)) ∧
    (∀ p w, v = .object p →
      h p ECMA_INTERNAL_PROPERTY_CLASS = some ECMA_MAGIC_STRING_BOOLEAN_UL →
      h p ECMA_INTERNAL_PROPERTY_PRIMITIVE_BOOLEAN_VALUE = some w →
      ecma_is_value_boolean (.simple w) = true →
      ecma_builtin_boolean_prototype_object_value_of h v =
        some (.normal (.simple w))) ∧
    (∀ p c, v = .object p →
      h p ECMA_INTERNAL_PROPERTY_CLASS = some c →
      c ≠ ECMA_MAGIC_STRING_BOOLEAN_UL →
      ecma_builtin_boolean_prototype_object_value_of h v =
        some (.throw (ecma_new_standard_error ECMA_ERROR_TYPE))) ∧
    (ecma_is_value_boolean v = false → (∀ p, v ≠ .object p) →
      ecma_builtin_boolean_prototype_object_value_of h v =
        some (.throw (ecma_new_standard_error ECMA_ERROR_TYPE))) := by
  refine ⟨fun hb => ?_, fun p w hv hcl hpr hw => ?_, fun p c hv hcl hc => ?_,
    fun hb hobj => ?_⟩
  · simp [ecma_builtin_boolean_prototype_object_value_of, hb,
      ecma_make_normal_completion_value]
  · subst hv
    have hnb : ecma_is_value_boolean (.object p) = false := by
      simp [ecma_is_value_boolean]
    have hlt : w < ECMA_SIMPLE_VALUE__COUNT := by
      simp only [ecma_is_value_boolean, decide_eq_true_eq, EcmaValue.simple.injEq] at hw
      simp only [ECMA_SIMPLE_VALUE__COUNT, ECMA_SIMPLE_VALUE_TRUE,
        ECMA_SIMPLE_VALUE_FALSE] at *
      omega
    simp [ecma_builtin_boolean_prototype_object_value_of, hnb,
      ecma_get_internal_property, hcl, hpr, hlt, hw, ecma_make_simple_value,
      ecma_make_normal_completion_value]
  · subst hv
    have hnb : ecma_is_value_boolean (.object p) = false := by
      simp [ecma_is_value_boolean]
    simp [ecma_builtin_boolean_prototype_object_value_of, hnb,
      ecma_get_internal_property, hcl, hc]
  · cases v with
    | simple sv =>
      simp [ecma_builtin_boolean_prototype_object_value_of, hb]
    | number n =>
      simp [ecma_builtin_boolean_prototype_object_value_of, hb]
    | string s =>
      simp [ecma_builtin_boolean_prototype_object_value_of, hb]
    | object p => exact absurd rfl (hobj p)

/-- A heap holding a boolean-wrapper object (`ref 0`, class tag boolean,
primitive slot true) and a plain object (`ref 1`, some other class tag). -/
def exampleHeap : Heap := fun p pid =>
  match p, pid with
  | .ref 0, 0 => some ECMA_MAGIC_STRING_BOOLEAN_UL
  | .ref 0, 1 => some ECMA_SIMPLE_VALUE_TRUE
  | .ref 1, 0 => some 99
  | _, _ => none

/-- Witness for C1: concrete evaluations at `true`, a wrapper of `true`,
the number `42` and a plain object. -/
theorem value_of_cases_witness :
    ecma_builtin_boolean_prototype_object_value_of exampleHeap
        (.simple ECMA_SIMPLE_VALUE_TRUE) =
      some (.normal (.simple ECMA_SIMPLE_VALUE_TRUE)) ∧
    ecma_builtin_boolean_prototype_object_value_of exampleHeap
        (.object (.ref 0)) =
      some (.normal (.simple ECMA_SIMPLE_VALUE_TRUE)) ∧
    ecma_builtin_boolean_prototype_object_value_of exampleHeap (.number 42) =
      some (.throw (ecma_new_standard_error ECMA_ERROR_TYPE)) ∧
    ecma_builtin_boolean_prototype_object_value_of exampleHeap
        (.object (.ref 1)) =
      some (.throw (ecma_new_standard_error ECMA_ERROR_TYPE)) :=
  ⟨(value_of_cases exampleHeap (.simple ECMA_SIMPLE_VALUE_TRUE)).1 (by decide),
   (value_of_cases exampleHeap (.object (.ref 0))).2.1 (.ref 0)
     ECMA_SIMPLE_VALUE_TRUE rfl (by decide) (by decide) (by decide),
   (value_of_cases exampleHeap (.number 42)).2.2.2 (by decide)
     (fun p hp => by cases hp),
   (value_of_cases exampleHeap (.object (.ref 1))).2.2.1 (.ref 1) 99 rfl
     (by decide) (by decide)⟩

/-- C2: `toString` delegates to `valueOf`: a Throw from `valueOf`
propagates unchanged (the very same completion), `Normal(true)` maps to
`Normal("true")` and `Normal(false)` maps to `Normal("false")`. -/
theorem to_string_delegates_to_value_of (h : Heap) (v : EcmaValue) :
    (∀ e, ecma_builtin_boolean_prototype_object_value_of h v = some (.throw e) →
      ecma_builtin_boolean_prototype_object_to_string h v = some (.throw e)) ∧
    (ecma_builtin_boolean_prototype_object_value_of h v =
        some (.normal (.simple ECMA_SIMPLE_VALUE_TRUE)) →
      ecma_builtin_boolean_prototype_object_to_string h v =
        some (.normal (.string ECMA_MAGIC_STRING_TRUE))) ∧
    (ecma_builtin_boolean_prototype_object_value_of h v =
        some (.normal (.simple ECMA_SIMPLE_VALUE_FALSE)) →
      ecma_builtin_boolean_prototype_object_to_string h v =
        some (.normal (.string ECMA_MAGIC_STRING_FALSE))) := by
  refine ⟨fun e hthrow => ?_, fun htrue => ?_, fun hfalse => ?_⟩
  · simp [ecma_builtin_boolean_prototype_object_to_string, hthrow,
      ecma_is_completion_value_normal]
  · simp [ecma_builtin_boolean_prototype_object_to_string, htrue,
      ecma_is_completion_value_normal, ecma_is_completion_value_normal_true,
      ecma_make_normal_completion_value, ecma_make_magic_string_value]
  · simp [ecma_builtin_boolean_prototype_object_to_string, hfalse,
      ecma_is_completion_value_normal, ecma_is_completion_value_normal_true,
      ecma_is_completion_value_normal_false, ecma_make_normal_completion_value,
      ecma_make_magic_string_value, ECMA_SIMPLE_VALUE_TRUE, ECMA_SIMPLE_VALUE_FALSE]

/-- Witness for C2: concrete evaluations at `true`, `false` and `42`. -/
theorem to_string_delegates_to_value_of_witness :
    ecma_builtin_boolean_prototype_object_to_string exampleHeap
        (.simple ECMA_SIMPLE_VALUE_TRUE) =
      some (.normal (.string ECMA_MAGIC_STRING_TRUE)) ∧
    ecma_builtin_boolean_prototype_object_to_string exampleHeap
        (.simple ECMA_SIMPLE_VALUE_FALSE) =
      some (.normal (.string ECMA_MAGIC_STRING_FALSE)) ∧
    ecma_builtin_boolean_prototype_object_to_string exampleHeap (.number 42) =
      some (.throw (ecma_new_standard_error ECMA_ERROR_TYPE)) :=
  ⟨(to_string_delegates_to_value_of exampleHeap
      (.simple ECMA_SIMPLE_VALUE_TRUE)).2.1 (by decide),
   (to_string_delegates_to_value_of exampleHeap
      (.simple ECMA_SIMPLE_VALUE_FALSE)).2.2 (by decide),
   (to_string_delegates_to_value_of exampleHeap (.number 42)).1
     (ecma_new_standard_error ECMA_ERROR_TYPE) (by decide)⟩

/-- Any non-trap result of `valueOf` is a Throw, normal-true or
normal-false. -/
theorem value_of_result_trichotomy (h : Heap) (v : EcmaValue) (c : CompletionValue)
    (hc : ecma_builtin_boolean_prototype_object_value_of h v = some c) :
    (∃ e, c = .throw e) ∨
    c = .normal (.simple ECMA_SIMPLE_VALUE_TRUE) ∨
    c = .normal (.simple ECMA_SIMPLE_VALUE_FALSE) := by
  unfold ecma_builtin_boolean_prototype_object_value_of at hc
  by_cases hb : ecma_is_value_boolean v = true
  · rw [if_pos hb] at hc
    simp only [ecma_make_normal_completion_value, Option.some.injEq] at hc
    simp only [ecma_is_value_boolean, decide_eq_true_eq] at hb
    rcases hb with hb | hb <;> subst hb <;> subst hc <;> simp
  · rw [if_neg hb] at hc
    cases v with
    | object p =>
      dsimp only at hc
      cases hcl : ecma_get_internal_property h p ECMA_INTERNAL_PROPERTY_CLASS with
      | none => rw [hcl] at hc; cases hc
      | some cls =>
        rw [hcl] at hc
        dsimp only at hc
        by_cases hcls : cls = ECMA_MAGIC_STRING_BOOLEAN_UL
        · rw [if_pos hcls] at hc
          cases hpr : ecma_get_internal_property h p
              ECMA_INTERNAL_PROPERTY_PRIMITIVE_BOOLEAN_VALUE with
          | none => rw [hpr] at hc; cases hc
          | some w =>
            rw [hpr] at hc
            dsimp only at hc
            by_cases hlt : w < ECMA_SIMPLE_VALUE__COUNT
            · rw [if_pos hlt] at hc
              by_cases hw : ecma_is_value_boolean (ecma_make_simple_value w) = true
              · rw [if_pos hw] at hc
                simp only [ecma_make_normal_completion_value, Option.some.injEq] at hc
                simp only [ecma_is_value_boolean, ecma_make_simple_value,
                  decide_eq_true_eq] at hw
                rcases hw with hw | hw <;>
                  simp [← hc, ecma_make_simple_value, hw]
              · rw [if_neg hw] at hc; cases hc
            · rw [if_neg hlt] at hc; cases hc
        · rw [if_neg hcls] at hc
          simp only [Option.some.injEq] at hc
          exact Or.inl ⟨_, hc.symm⟩
    | simple sv =>
      simp only [Option.some.injEq] at hc
      exact Or.inl ⟨_, hc.symm⟩
    | number n =>
      simp only [Option.some.injEq] at hc
      exact Or.inl ⟨_, hc.symm⟩
    | string s =>
      simp only [Option.some.injEq] at hc
      exact Or.inl ⟨_, hc.symm⟩

/-- C10: `valueOf` only ever produces `Normal(true)`, `Normal(false)` or a
Throw completion — never a Normal completion carrying a non-boolean value —
so the assertion inside `toString`, which requires that a non-true normal
completion from `valueOf` carries false, can never fail: `toString` traps
only when `valueOf` itself traps. -/
theorem value_of_normal_is_boolean (h : Heap) (v : EcmaValue) :
    (∀ c, ecma_builtin_boolean_prototype_object_value_of h v = some c →
      (∃ e, c = .throw e) ∨
      c = .normal (.simple ECMA_SIMPLE_VALUE_TRUE) ∨
      c = .normal (.simple ECMA_SIMPLE_VALUE_FALSE)) ∧
    (ecma_builtin_boolean_prototype_object_to_string h v = none →
      ecma_builtin_boolean_prototype_object_value_of h v = none) := by
  constructor
  · exact fun c hc => value_of_result_trichotomy h v c hc
  · intro hts
    cases hvo : ecma_builtin_boolean_prototype_object_value_of h v with
    | none => rfl
    | some c =>
      exfalso
      have hcases := value_of_result_trichotomy h v c hvo
      unfold ecma_builtin_boolean_prototype_object_to_string at hts
      rw [hvo] at hts
      rcases hcases with ⟨e, he⟩ | he | he <;> subst he <;>
        simp [ecma_is_completion_value_normal, ecma_is_completion_value_normal_true,
          ecma_is_completion_value_normal_false, ecma_make_normal_completion_value,
          ecma_make_magic_string_value, ECMA_SIMPLE_VALUE_TRUE,
          ECMA_SIMPLE_VALUE_FALSE] at hts

/-- Witness for C10 at the wrapper object of the example heap. -/
theorem value_of_normal_is_boolean_witness :
    (∃ e, (CompletionValue.throw (ecma_new_standard_error ECMA_ERROR_TYPE)) = .throw e) ∨
    (CompletionValue.throw (ecma_new_standard_error ECMA_ERROR_TYPE)) =
      .normal (.simple ECMA_SIMPLE_VALUE_TRUE) ∨
    (CompletionValue.throw (ecma_new_standard_error ECMA_ERROR_TYPE)) =
      .normal (.simple ECMA_SIMPLE_VALUE_FALSE) :=
  (value_of_normal_is_boolean exampleHeap (.number 42)).1
    (.throw (ecma_new_standard_error ECMA_ERROR_TYPE)) (by decide)

/-! ## Evaluation lemmas for the lazy instantiator -/

theorem try_inst_eval_not_magic (s : MaskState) (n : Nat) :
    ecma_builtin_boolean_prototype_try_to_instantiate_property s (.other n) =
      some (none, s, []) := rfl

theorem try_inst_eval_not_found (s : MaskState) (id : Nat)
    (h10 : id ≠ ECMA_MAGIC_STRING_CONSTRUCTOR)
    (h30 : id ≠ ECMA_MAGIC_STRING_TO_STRING_UL)
    (h40 : id ≠ ECMA_MAGIC_STRING_VALUE_OF_UL) :
    ecma_builtin_boolean_prototype_try_to_instantiate_property s (.magic id) =
      some (none, s, []) := by
  unfold ecma_builtin_boolean_prototype_try_to_instantiate_property
  simp only [ecma_is_string_magic]
  rw [bin_search_names_characterization]
  simp [h10, h30, h40]

theorem try_inst_eval_constructor (s : MaskState) :
    ecma_builtin_boolean_prototype_try_to_instantiate_property s
        (.magic ECMA_MAGIC_STRING_CONSTRUCTOR) =
      if s.mask_0_31 &&& (1 <<< 0) = 0 then some (none, s, [])
      else some (some ⟨false, false, false,
          .object (.builtin ECMA_BUILTIN_ID_BOOLEAN)⟩,
        ⟨s.mask_0_31 &&& compl32 (1 <<< 0), s.mask_32_63⟩,
        [Event.create_named_data_property,
         Event.gc_update_may_ref_younger_object_flag, Event.free_value]) := by
  unfold ecma_builtin_boolean_prototype_try_to_instantiate_property
  simp only [ecma_is_string_magic]
  rw [bin_search_names_characterization]
  simp only [show Int.toNat 0 = 0 from rfl]
  norm_num [ECMA_MAGIC_STRING_CONSTRUCTOR, ECMA_MAGIC_STRING_TO_STRING_UL,
    ECMA_MAGIC_STRING_VALUE_OF_UL]

theorem try_inst_eval_to_string (s : MaskState) :
    ecma_builtin_boolean_prototype_try_to_instantiate_property s
        (.magic ECMA_MAGIC_STRING_TO_STRING_UL) =
      if s.mask_0_31 &&& (1 <<< 1) = 0 then some (none, s, [])
      else some (some ⟨true, false, true,
          .object (.routine ECMA_BUILTIN_ID_BOOLEAN_PROTOTYPE
            ECMA_MAGIC_STRING_TO_STRING_UL)⟩,
        ⟨s.mask_0_31 &&& compl32 (1 <<< 1), s.mask_32_63⟩,
        [Event.create_named_data_property,
         Event.gc_update_may_ref_younger_object_flag, Event.free_value]) := by
  unfold ecma_builtin_boolean_prototype_try_to_instantiate_property
  simp only [ecma_is_string_magic]
  rw [bin_search_names_characterization]
  simp only [show Int.toNat 1 = 1 from rfl]
  norm_num [ECMA_MAGIC_STRING_CONSTRUCTOR, ECMA_MAGIC_STRING_TO_STRING_UL,
    ECMA_MAGIC_STRING_VALUE_OF_UL]

theorem try_inst_eval_value_of (s : MaskState) :
    ecma_builtin_boolean_prototype_try_to_instantiate_property s
        (.magic ECMA_MAGIC_STRING_VALUE_OF_UL) =
      if s.mask_0_31 &&& (1 <<< 2) = 0 then some (none, s, [])
      else some (some ⟨true, false, true,
          .object (.routine ECMA_BUILTIN_ID_BOOLEAN_PROTOTYPE
            ECMA_MAGIC_STRING_VALUE_OF_UL)⟩,
        ⟨s.mask_0_31 &&& compl32 (1 <<< 2), s.mask_32_63⟩,
        [Event.create_named_data_property,
         Event.gc_update_may_ref_younger_object_flag, Event.free_value]) := by
  unfold ecma_builtin_boolean_prototype_try_to_instantiate_property
  simp only [ecma_is_string_magic]
  rw [bin_search_names_characterization]
  norm_num [ECMA_MAGIC_STRING_CONSTRUCTOR, ECMA_MAGIC_STRING_TO_STRING_UL,
    ECMA_MAGIC_STRING_VALUE_OF_UL]
  simp only [show Int.toNat 2 = 2 from rfl]

/-! ## C4: try_to_instantiate_property never throws -/

/-- The C4 characterization at a name found in the registry at index
`idx`, abstracted over the created record and event trace. -/
theorem try_inst_none_characterization_found (s : MaskState) (id idx : Nat)
    (rec : PropertyRecord) (evts : List Event) (hidx : idx < 32)
    (hreg : registry_index (.magic id) = some idx)
    (hbs : ecma_builtin_bin_search_for_magic_string_id_in_array
      ecma_builtin_property_names ecma_builtin_boolean_prototype_property_number id =
      Int.ofNat idx)
    (heval : ecma_builtin_boolean_prototype_try_to_instantiate_property s (.magic id) =
      if s.mask_0_31 &&& (1 <<< idx) = 0 then some (none, s, [])
      else some (some rec, ⟨s.mask_0_31 &&& compl32 (1 <<< idx), s.mask_32_63⟩, evts)) :
    (∃ r, ecma_builtin_boolean_prototype_try_to_instantiate_property s (.magic id) =
      some r) ∧
    (∀ res s2 tr,
      ecma_builtin_boolean_prototype_try_to_instantiate_property s (.magic id) =
        some (res, s2, tr) →
      (res = none ↔
        ecma_is_string_magic (.magic id) = none ∨
        (∃ i, ecma_is_string_magic (.magic id) = some i ∧
          ecma_builtin_bin_search_for_magic_string_id_in_array
            ecma_builtin_property_names
            ecma_builtin_boolean_prototype_property_number i = -1) ∨
        (∃ k, registry_index (.magic id) = some k ∧
          mask64_testBit s k = false))) := by
  by_cases hbit : s.mask_0_31 &&& (1 <<< idx) = 0
  · rw [if_pos hbit] at heval
    refine ⟨⟨_, heval⟩, ?_⟩
    intro res s2 tr hrun
    rw [heval] at hrun
    simp only [Option.some.injEq, Prod.mk.injEq] at hrun
    obtain ⟨h1, _h2, _h3⟩ := hrun
    subst h1
    refine iff_of_true rfl (Or.inr (Or.inr ⟨idx, hreg, ?_⟩))
    simp only [mask64_testBit, if_neg (by omega : ¬ idx ≥ 32)]
    exact (land_one_shift_eq_zero_iff _ idx).mp hbit
  · rw [if_neg hbit] at heval
    refine ⟨⟨_, heval⟩, ?_⟩
    intro res s2 tr hrun
    rw [heval] at hrun
    simp only [Option.some.injEq, Prod.mk.injEq] at hrun
    obtain ⟨h1, _h2, _h3⟩ := hrun
    subst h1
    refine iff_of_false (by simp) ?_
    rintro (hA | ⟨i, hi, hbs'⟩ | ⟨k, hk, hbitf⟩)
    · simp [ecma_is_string_magic] at hA
    · simp only [ecma_is_string_magic, Option.some.injEq] at hi
      subst hi
      rw [hbs] at hbs'
      rw [Int.ofNat_eq_coe] at hbs'
      omega
    · rw [hreg] at hk
      simp only [Option.some.injEq] at hk
      subst hk
      simp only [mask64_testBit, if_neg (by omega : ¬ idx ≥ 32)] at hbitf
      exact hbit ((land_one_shift_eq_zero_iff s.mask_0_31 idx).mpr hbitf)

/-- C4: try_to_instantiate_property never produces a Throw completion (by
its very result type it yields a record or NULL, never a completion), it
never traps, and its result is NULL exactly when the property name is not
an interned magic string, or the name is absent from the builtin's
registry array, or the corresponding instantiation-mask bit is already
clear; in every other case it returns a record. -/
theorem try_to_instantiate_never_throws (s : MaskState) (name : EcmaString) :
    (∃ r, ecma_builtin_boolean_prototype_try_to_instantiate_property s name =
      some r) ∧
    (∀ res s2 tr,
      ecma_builtin_boolean_prototype_try_to_instantiate_property s name =
        some (res, s2, tr) →
      (res = none ↔
        ecma_is_string_magic name = none ∨
        (∃ i, ecma_is_string_magic name = some i ∧
          ecma_builtin_bin_search_for_magic_string_id_in_array
            ecma_builtin_property_names
            ecma_builtin_boolean_prototype_property_number i = -1) ∨
        (∃ k, registry_index name = some k ∧
          mask64_testBit s k = false))) := by
  cases name with
  | other n =>
    refine ⟨⟨_, try_inst_eval_not_magic s n⟩, ?_⟩
    intro res s2 tr hrun
    rw [try_inst_eval_not_magic] at hrun
    simp only [Option.some.injEq, Prod.mk.injEq] at hrun
    obtain ⟨h1, _h2, _h3⟩ := hrun
    subst h1
    exact iff_of_true rfl (Or.inl rfl)
  | magic id =>
    by_cases h10 : id = ECMA_MAGIC_STRING_CONSTRUCTOR
    · subst h10
      exact try_inst_none_characterization_found s _ 0 _ _ (by omega) (by decide)
        (by decide) (try_inst_eval_constructor s)
    by_cases h30 : id = ECMA_MAGIC_STRING_TO_STRING_UL
    · subst h30
      exact try_inst_none_characterization_found s _ 1 _ _ (by omega) (by decide)
        (by decide) (try_inst_eval_to_string s)
    by_cases h40 : id = ECMA_MAGIC_STRING_VALUE_OF_UL
    · subst h40
      exact try_inst_none_characterization_found s _ 2 _ _ (by omega) (by decide)
        (by decide) (try_inst_eval_value_of s)
    refine ⟨⟨_, try_inst_eval_not_found s id h10 h30 h40⟩, ?_⟩
    intro res s2 tr hrun
    rw [try_inst_eval_not_found s id h10 h30 h40] at hrun
    simp only [Option.some.injEq, Prod.mk.injEq] at hrun
    obtain ⟨h1, _h2, _h3⟩ := hrun
    subst h1
    refine iff_of_true rfl (Or.inr (Or.inl ⟨id, rfl, ?_⟩))
    rw [bin_search_names_characterization]
    simp [h10, h30, h40]

/-- Witness for C4 at a concrete state where the toString bit is already
clear. -/
theorem try_to_instantiate_never_throws_witness :
    ((none : Option PropertyRecord) = none ↔
      ecma_is_string_magic (.magic ECMA_MAGIC_STRING_TO_STRING_UL) = none ∨
      (∃ i, ecma_is_string_magic (.magic ECMA_MAGIC_STRING_TO_STRING_UL) = some i ∧
        ecma_builtin_bin_search_for_magic_string_id_in_array
          ecma_builtin_property_names
          ecma_builtin_boolean_prototype_property_number i = -1) ∨
      (∃ k, registry_index (.magic ECMA_MAGIC_STRING_TO_STRING_UL) = some k ∧
        mask64_testBit ⟨0, 0⟩ k = false)) :=
  (try_to_instantiate_never_throws ⟨0, 0⟩
    (.magic ECMA_MAGIC_STRING_TO_STRING_UL)).2 none ⟨0, 0⟩ [] (by decide)

/-! ## C3: instantiate-once invariant -/

/-- C3 at a name found in the registry at index `idx`, abstracted over the
created record and trace: bits only ever clear, a success clears exactly
the bit at `idx`, and the second call finds the bit clear. -/
theorem try_inst_at_most_once_found (s : MaskState) (id idx : Nat)
    (rec : PropertyRecord) (evts : List Event) (hidx : idx < 32)
    (hm0 : s.mask_0_31 < 2 ^ 32)
    (hreg : registry_index (.magic id) = some idx)
    (heval : ∀ s' : MaskState,
      ecma_builtin_boolean_prototype_try_to_instantiate_property s' (.magic id) =
      if s'.mask_0_31 &&& (1 <<< idx) = 0 then some (none, s', [])
      else some (some rec, ⟨s'.mask_0_31 &&& compl32 (1 <<< idx), s'.mask_32_63⟩, evts)) :
    ∀ res s2 tr,
      ecma_builtin_boolean_prototype_try_to_instantiate_property s (.magic id) =
        some (res, s2, tr) →
      (∀ j, mask64_testBit s2 j = true → mask64_testBit s j = true) ∧
      (∀ p, res = some p →
        ∃ k, registry_index (.magic id) = some k ∧
          mask64_testBit s k = true ∧
          mask64_testBit s2 k = false ∧
          (∀ j, j ≠ k → mask64_testBit s2 j = mask64_testBit s j) ∧
          ecma_builtin_boolean_prototype_try_to_instantiate_property s2 (.magic id) =
            some (none, s2, [])) := by
  intro res s2 tr hrun
  rw [heval s] at hrun
  by_cases hbit : s.mask_0_31 &&& (1 <<< idx) = 0
  · rw [if_pos hbit] at hrun
    simp only [Option.some.injEq, Prod.mk.injEq] at hrun
    obtain ⟨h1, h2, _h3⟩ := hrun
    subst h1
    subst h2
    exact ⟨fun j hj => hj, fun p hp => by cases hp⟩
  · rw [if_neg hbit] at hrun
    simp only [Option.some.injEq, Prod.mk.injEq] at hrun
    obtain ⟨h1, h2, _h3⟩ := hrun
    subst h1
    subst h2
    have hset : s.mask_0_31.testBit idx = true := by
      cases hb : s.mask_0_31.testBit idx with
      | true => rfl
      | false => exact absurd ((land_one_shift_eq_zero_iff _ idx).mpr hb) hbit
    constructor
    · intro j
      simp only [mask64_testBit]
      by_cases hj32 : j ≥ 32
      · simp only [if_pos hj32]
        exact fun hj => hj
      · simp only [if_neg hj32, Nat.testBit_land, Bool.and_eq_true]
        exact fun hj => hj.1
    · intro p _hp
      refine ⟨idx, hreg, ?_, ?_, ?_, ?_⟩
      · simp only [mask64_testBit, if_neg (by omega : ¬ idx ≥ 32)]
        exact hset
      · simp only [mask64_testBit, if_neg (by omega : ¬ idx ≥ 32)]
        exact testBit_land_compl32_self s.mask_0_31 idx hidx
      · intro j hj
        simp only [mask64_testBit]
        by_cases hj32 : j ≥ 32
        · simp only [if_pos hj32]
        · simp only [if_neg hj32]
          exact testBit_land_compl32_other s.mask_0_31 idx j hidx hm0 hj
      · rw [heval ⟨s.mask_0_31 &&& compl32 (1 <<< idx), s.mask_32_63⟩]
        rw [if_pos ((land_one_shift_eq_zero_iff _ idx).mpr
          (testBit_land_compl32_self s.mask_0_31 idx hidx))]

/-- C3: a successful instantiation clears exactly the mask bit at the
name's registry index, no run ever re-sets a cleared bit (the 64-bit mask
view is bitwise monotone decreasing), and every subsequent call for the
same name on the same object finds its bit clear and returns NULL. -/
theorem try_to_instantiate_at_most_once (s : MaskState) (name : EcmaString)
    (res : Option PropertyRecord) (s2 : MaskState) (tr : List Event)
    (hm0 : s.mask_0_31 < 2 ^ 32)
    (hrun : ecma_builtin_boolean_prototype_try_to_instantiate_property s name =
      some (res, s2, tr)) :
    (∀ j, mask64_testBit s2 j = true → mask64_testBit s j = true) ∧
    (∀ p, res = some p →
      ∃ k, registry_index name = some k ∧
        mask64_testBit s k = true ∧
        mask64_testBit s2 k = false ∧
        (∀ j, j ≠ k → mask64_testBit s2 j = mask64_testBit s j) ∧
        ecma_builtin_boolean_prototype_try_to_instantiate_property s2 name =
          some (none, s2, [])) := by
  cases name with
  | other n =>
    rw [try_inst_eval_not_magic] at hrun
    simp only [Option.some.injEq, Prod.mk.injEq] at hrun
    obtain ⟨h1, h2, _h3⟩ := hrun
    subst h1
    subst h2
    exact ⟨fun j hj => hj, fun p hp => by cases hp⟩
  | magic id =>
    by_cases h10 : id = ECMA_MAGIC_STRING_CONSTRUCTOR
    · subst h10
      exact try_inst_at_most_once_found s _ 0 _ _ (by omega) hm0 (by decide)
        try_inst_eval_constructor res s2 tr hrun
    by_cases h30 : id = ECMA_MAGIC_STRING_TO_STRING_UL
    · subst h30
      exact try_inst_at_most_once_found s _ 1 _ _ (by omega) hm0 (by decide)
        try_inst_eval_to_string res s2 tr hrun
    by_cases h40 : id = ECMA_MAGIC_STRING_VALUE_OF_UL
    · subst h40
      exact try_inst_at_most_once_found s _ 2 _ _ (by omega) hm0 (by decide)
        try_inst_eval_value_of res s2 tr hrun
    rw [try_inst_eval_not_found s id h10 h30 h40] at hrun
    simp only [Option.some.injEq, Prod.mk.injEq] at hrun
    obtain ⟨h1, h2, _h3⟩ := hrun
    subst h1
    subst h2
    exact ⟨fun j hj => hj, fun p hp => by cases hp⟩

/-- Witness for C3: instantiating toString on mask state 7 clears exactly
bit 1, and the second call returns NULL. -/
theorem try_to_instantiate_at_most_once_witness :
    ∃ k, registry_index (.magic ECMA_MAGIC_STRING_TO_STRING_UL) = some k ∧
      mask64_testBit ⟨7, 0⟩ k = true ∧
      mask64_testBit ⟨5, 0⟩ k = false ∧
      (∀ j, j ≠ k → mask64_testBit ⟨5, 0⟩ j = mask64_testBit ⟨7, 0⟩ j) ∧
      ecma_builtin_boolean_prototype_try_to_instantiate_property ⟨5, 0⟩
        (.magic ECMA_MAGIC_STRING_TO_STRING_UL) = some (none, ⟨5, 0⟩, []) :=
  (try_to_instantiate_at_most_once ⟨7, 0⟩ (.magic ECMA_MAGIC_STRING_TO_STRING_UL)
      (some ⟨true, false, true,
        .object (.routine ECMA_BUILTIN_ID_BOOLEAN_PROTOTYPE
          ECMA_MAGIC_STRING_TO_STRING_UL)⟩)
      ⟨5, 0⟩
      [Event.create_named_data_property,
       Event.gc_update_may_ref_younger_object_flag, Event.free_value]
      (by norm_num) (by decide)).2 _ rfl

/-! ## C8: attributes of instantiated properties -/

/-- C8: a successful instantiation is of one of the three registered
names; the routine entries (toString, valueOf) produce a writable,
non-enumerable, configurable property, and the constructor value entry
produces a non-writable, non-enumerable, non-configurable property. -/
theorem try_to_instantiate_attributes (s : MaskState) (name : EcmaString)
    (p : PropertyRecord) (s2 : MaskState) (tr : List Event)
    (hrun : ecma_builtin_boolean_prototype_try_to_instantiate_property s name =
      some (some p, s2, tr)) :
    (name = .magic ECMA_MAGIC_STRING_CONSTRUCTOR ∨
     name = .magic ECMA_MAGIC_STRING_TO_STRING_UL ∨
     name = .magic ECMA_MAGIC_STRING_VALUE_OF_UL) ∧
    ((name = .magic ECMA_MAGIC_STRING_TO_STRING_UL ∨
      name = .magic ECMA_MAGIC_STRING_VALUE_OF_UL) →
      p.writable = true ∧ p.enumerable = false ∧ p.configurable = true) ∧
    (name = .magic ECMA_MAGIC_STRING_CONSTRUCTOR →
      p.writable = false ∧ p.enumerable = false ∧ p.configurable = false) := by
  cases name with
  | other n =>
    rw [try_inst_eval_not_magic] at hrun
    simp at hrun
  | magic id =>
    by_cases h10 : id = ECMA_MAGIC_STRING_CONSTRUCTOR
    · subst h10
      rw [try_inst_eval_constructor] at hrun
      by_cases hbit : s.mask_0_31 &&& (1 <<< 0) = 0
      · rw [if_pos hbit] at hrun
        simp at hrun
      · rw [if_neg hbit] at hrun
        simp only [Option.some.injEq, Prod.mk.injEq] at hrun
        obtain ⟨h1, -, -⟩ := hrun
        subst h1
        refine ⟨Or.inl rfl, fun hn => ?_, fun _ => ⟨rfl, rfl, rfl⟩⟩
        rcases hn with hn | hn <;> exact absurd hn (by decide)
    by_cases h30 : id = ECMA_MAGIC_STRING_TO_STRING_UL
    · subst h30
      rw [try_inst_eval_to_string] at hrun
      by_cases hbit : s.mask_0_31 &&& (1 <<< 1) = 0
      · rw [if_pos hbit] at hrun
        simp at hrun
      · rw [if_neg hbit] at hrun
        simp only [Option.some.injEq, Prod.mk.injEq] at hrun
        obtain ⟨h1, -, -⟩ := hrun
        subst h1
        refine ⟨Or.inr (Or.inl rfl), fun _ => ⟨rfl, rfl, rfl⟩, fun hn => ?_⟩
        exact absurd hn (by decide)
    by_cases h40 : id = ECMA_MAGIC_STRING_VALUE_OF_UL
    · subst h40
      rw [try_inst_eval_value_of] at hrun
      by_cases hbit : s.mask_0_31 &&& (1 <<< 2) = 0
      · rw [if_pos hbit] at hrun
        simp at hrun
      · rw [if_neg hbit] at hrun
        simp only [Option.some.injEq, Prod.mk.injEq] at hrun
        obtain ⟨h1, -, -⟩ := hrun
        subst h1
        refine ⟨Or.inr (Or.inr rfl), fun _ => ⟨rfl, rfl, rfl⟩, fun hn => ?_⟩
        exact absurd hn (by decide)
    rw [try_inst_eval_not_found s id h10 h30 h40] at hrun
    simp at hrun

/-- Witness for C8: instantiating the constructor property on mask state 1
produces the fully immutable record. -/
theorem try_to_instantiate_attributes_witness :
    (PropertyRecord.mk false false false
        (.object (.builtin ECMA_BUILTIN_ID_BOOLEAN))).writable = false ∧
    (PropertyRecord.mk false false false
        (.object (.builtin ECMA_BUILTIN_ID_BOOLEAN))).enumerable = false ∧
    (PropertyRecord.mk false false false
        (.object (.builtin ECMA_BUILTIN_ID_BOOLEAN))).configurable = false :=
  (try_to_instantiate_attributes ⟨1, 0⟩ (.magic ECMA_MAGIC_STRING_CONSTRUCTOR)
    ⟨false, false, false, .object (.builtin ECMA_BUILTIN_ID_BOOLEAN)⟩ ⟨0, 0⟩
    [Event.create_named_data_property,
     Event.gc_update_may_ref_younger_object_flag, Event.free_value]
    (by decide)).2.2 rfl

/-! ## C9: GC flag ordering -/

/-- C9: in every successful run of try_to_instantiate_property that stores
a heap reference into the new property, the call flagging the owning
object for the collector occurs strictly before the call releasing the
temporary local handle: the flag event appears at a position strictly
before the first (and only) release event of the trace. -/
theorem gc_flag_before_release (s : MaskState) (name : EcmaString)
    (p : PropertyRecord) (s2 : MaskState) (tr : List Event)
    (hrun : ecma_builtin_boolean_prototype_try_to_instantiate_property s name =
      some (some p, s2, tr))
    (href : ∃ q, p.value = EcmaValue.object q) :
    ∃ i j, i < j ∧
      tr.get? i = some Event.gc_update_may_ref_younger_object_flag ∧
      tr.get? j = some Event.free_value ∧
      ∀ k, tr.get? k = some Event.free_value → j ≤ k := by
  have htr : tr = [Event.create_named_data_property,
      Event.gc_update_may_ref_younger_object_flag, Event.free_value] := by
    cases name with
    | other n =>
      rw [try_inst_eval_not_magic] at hrun
      simp at hrun
    | magic id =>
      by_cases h10 : id = ECMA_MAGIC_STRING_CONSTRUCTOR
      · subst h10
        rw [try_inst_eval_constructor] at hrun
        by_cases hbit : s.mask_0_31 &&& (1 <<< 0) = 0
        · rw [if_pos hbit] at hrun
          simp at hrun
        · rw [if_neg hbit] at hrun
          simp only [Option.some.injEq, Prod.mk.injEq] at hrun
          exact hrun.2.2.symm
      by_cases h30 : id = ECMA_MAGIC_STRING_TO_STRING_UL
      · subst h30
        rw [try_inst_eval_to_string] at hrun
        by_cases hbit : s.mask_0_31 &&& (1 <<< 1) = 0
        · rw [if_pos hbit] at hrun
          simp at hrun
        · rw [if_neg hbit] at hrun
          simp only [Option.some.injEq, Prod.mk.injEq] at hrun
          exact hrun.2.2.symm
      by_cases h40 : id = ECMA_MAGIC_STRING_VALUE_OF_UL
      · subst h40
        rw [try_inst_eval_value_of] at hrun
        by_cases hbit : s.mask_0_31 &&& (1 <<< 2) = 0
        · rw [if_pos hbit] at hrun
          simp at hrun
        · rw [if_neg hbit] at hrun
          simp only [Option.some.injEq, Prod.mk.injEq] at hrun
          exact hrun.2.2.symm
      rw [try_inst_eval_not_found s id h10 h30 h40] at hrun
      simp at hrun
  subst htr
  refine ⟨1, 2, by omega, rfl, rfl, ?_⟩
  intro k hk
  match k with
  | 0 => cases hk
  | 1 => cases hk
  | 2 => omega
  | n + 3 => cases hk

/-- Witness for C9 at the concrete toString instantiation on mask state 7. -/
theorem gc_flag_before_release_witness :
    ∃ i j, i < j ∧
      [Event.create_named_data_property,
       Event.gc_update_may_ref_younger_object_flag,
       Event.free_value].get? i = some Event.gc_update_may_ref_younger_object_flag ∧
      [Event.create_named_data_property,
       Event.gc_update_may_ref_younger_object_flag,
       Event.free_value].get? j = some Event.free_value ∧
      ∀ k, [Event.create_named_data_property,
        Event.gc_update_may_ref_younger_object_flag,
        Event.free_value].get? k = some Event.free_value → j ≤ k :=
  gc_flag_before_release ⟨7, 0⟩ (.magic ECMA_MAGIC_STRING_TO_STRING_UL)
    ⟨true, false, true, .object (.routine ECMA_BUILTIN_ID_BOOLEAN_PROTOTYPE
      ECMA_MAGIC_STRING_TO_STRING_UL)⟩ ⟨5, 0⟩
    [Event.create_named_data_property,
     Event.gc_update_may_ref_younger_object_flag, Event.free_value]
    (by decide)
    ⟨.routine ECMA_BUILTIN_ID_BOOLEAN_PROTOTYPE ECMA_MAGIC_STRING_TO_STRING_UL, rfl⟩

end JerryBoolProto
